import Mathlib

/-!
Shallow embedding of the Review Reply Orchestration Engine of the
ReviewGoogle repository.

The embedded code comes from:
* `src/components/Dashboard.tsx` — the dashboard controller
  (`loadReviews`, `generateReply`, `autoGenerateAll`, `postReply`,
  `handleReplyChange`);
* the Google Business service module (`fetchGoogleReviews`,
  `postReplyToGoogle`) — review fetching and the star-rating mapping;
* the Gemini service module (`generateReviewReply`) — reply generation.

External effects (HTTP fetches, the Gemini call) are modelled by passing
their outcome as an explicit `Except`/`Option` argument: the embedded
function then performs exactly the data transformation the TypeScript
code performs on that outcome.
-/

/-- Type `ReviewStatus` from `src/types.ts`: `'pending' | 'drafted' | 'replied'`. -/
inductive ReviewStatus where
  | pending
  | drafted
  | replied
deriving Repr, DecidableEq

/-- Type `GoogleReview` from `src/types.ts`. -/
structure GoogleReview where
  id : String
  reviewId : String
  reviewerName : String
  reviewerAvatar : Option String
  rating : Int
  content : String
  date : String
  status : ReviewStatus
  replyContent : Option String
deriving Repr, DecidableEq

/-- The reviewer object inside a raw review of the Google v4 reviews payload
(fields the mapping in `fetchGoogleReviews` reads). -/
structure SourceReviewer where
  displayName : String
  profilePhotoUrl : Option String
deriving Repr, DecidableEq

/-- The `reviewReply` object inside a raw review of the Google v4 payload. -/
structure SourceReply where
  comment : String
deriving Repr, DecidableEq

/-- One raw review of the Google v4 reviews payload, restricted to the fields
the mapping in `fetchGoogleReviews` reads. -/
structure SourceReview where
  name : String
  reviewId : String
  reviewer : SourceReviewer
  starRating : String
  comment : Option String
  createTime : String
  reviewReply : Option SourceReply
deriving Repr, DecidableEq

/-- The array literal `["ZERO", "ONE", "TWO", "THREE", "FOUR", "FIVE"]` used by
`fetchGoogleReviews` to decode `starRating`. -/
def starRatingValues : List String :=
  ["ZERO", "ONE", "TWO", "THREE", "FOUR", "FIVE"]

/-- JavaScript `Array.prototype.indexOf`, position-accumulating recursion:
index of the first occurrence, `-1` when absent. -/
def indexOfFrom (xs : List String) (s : String) (i : Int) : Int :=
  match xs with
  | [] => -1
  | x :: rest => if x = s then i else indexOfFrom rest s (i + 1)

/-- JavaScript `xs.indexOf(s)`. -/
def jsIndexOf (xs : List String) (s : String) : Int :=
  indexOfFrom xs s 0

/-- Display formatting `new Date(createTime).toLocaleDateString()` is rendering
plumbing outside every claim; it is kept as an abstract total function on the
timestamp string. -/
def formatDate (createTime : String) : String :=
  createTime

/-- The per-review mapping inside `fetchGoogleReviews`
(`data.reviews.map((r) => ({...}))`). -/
def mapSourceReview (r : SourceReview) : GoogleReview :=
  { id := r.name
    reviewId := r.reviewId
    reviewerName := r.reviewer.displayName
    reviewerAvatar := r.reviewer.profilePhotoUrl
    rating := jsIndexOf starRatingValues r.starRating
    content := r.comment.getD "(No content)"
    date := formatDate r.createTime
    status := if r.reviewReply.isSome then .replied else .pending
    replyContent := r.reviewReply.map (·.comment) }

/-- Function `fetchGoogleReviews` of the Google Business service module.  The HTTP
outcome is the argument: `Except.error` is a non-ok response (the function
throws `'Failed to fetch reviews. Ensure API is enabled in GCP.'`), `Except.ok
none` is an ok response whose body has no `reviews` field (returns `[]`), and
`Except.ok (some rs)` is an ok response carrying the raw reviews. -/
def fetchGoogleReviews (httpOutcome : Except Unit (Option (List SourceReview))) :
    Except String (List GoogleReview) :=
  match httpOutcome with
  | .error _ => .error "Failed to fetch reviews. Ensure API is enabled in GCP."
  | .ok none => .ok []
  | .ok (some rs) => .ok (rs.map mapSourceReview)

/-- The error message thrown by `generateReviewReply` when the Gemini call
throws. -/
def genFailureMsg : String :=
  "Failed to generate reply. Please check your connection or API limit."

/-- The fallback text `generateReviewReply` returns when `response.text` is
falsy (absent or the empty string). -/
def genFallbackMsg : String :=
  "Could not generate a reply. Please try again."

/-- Function `generateReviewReply` of the Gemini service module.  The outcome of
`ai.models.generateContent` is the argument: `Except.error` is a thrown call,
`Except.ok t` a response whose `text` field is `t` (`none` when absent).  The
body then evaluates `response.text || fallback` — JavaScript `||` takes the
fallback on `undefined` and on the empty string — and rethrows call failures
as `genFailureMsg`. -/
def generateReviewReply (callOutcome : Except Unit (Option String)) :
    Except String String :=
  match callOutcome with
  | .error _ => .error genFailureMsg
  | .ok t =>
      .ok (match t with
        | some s => if s = "" then genFallbackMsg else s
        | none => genFallbackMsg)

/-- The component state of `Dashboard` that the controller functions touch:
the `reviews`, `loading`, `error` and `processingId` hooks. -/
structure DashState where
  reviews : List GoogleReview
  loading : Bool
  error : Option String
  processingId : Option String
deriving Repr, DecidableEq

/-- The fallback error message `loadReviews` shows when the thrown error has a
falsy `message`. -/
def loadFailureMsg : String :=
  "Failed to load reviews. Check console for details."

/-- Function `loadReviews` of `Dashboard.tsx`.  `fetchResult` is the settled result of
`fetchGoogleReviews` (already composed with the HTTP outcome).  The body sets
`loading` true and clears `error`, then on success replaces `reviews` with the
fetched data, on failure sets `error` to the thrown message (or the fallback
when the message is empty) and leaves `reviews` untouched; `finally` clears
`loading`. -/
def loadReviews (s : DashState) (fetchResult : Except String (List GoogleReview)) :
    DashState :=
  match fetchResult with
  | .ok data =>
      { s with reviews := data, error := none, loading := false }
  | .error msg =>
      { s with error := some (if msg = "" then loadFailureMsg else msg),
               loading := false }

/-- Function `generateReply` of `Dashboard.tsx`.  `genResult` is the settled result of
`generateReviewReply` for this review.  On success every review whose `id`
equals `review.id` gets `status := drafted` and `replyContent := reply`; on
failure the catch block only fires the `"AI Generation failed."` alert and the
review list is untouched.  The returned `Bool` is `false` exactly when that
alert fired; `finally` clears `processingId` on both paths. -/
def generateReply (s : DashState) (reviewId : String)
    (genResult : Except String String) : DashState × Bool :=
  match genResult with
  | .ok reply =>
      ({ s with
          reviews := s.reviews.map fun r =>
            if r.id = reviewId then
              { r with status := .drafted, replyContent := some reply }
            else r,
          processingId := none }, true)
  | .error _ =>
      ({ s with processingId := none }, false)

/-- Function `autoGenerateAll` of `Dashboard.tsx`: filter the current reviews down to
the `pending` ones (the snapshot), then run `generateReply` on each snapshot
element in order with `await`, one completing before the next starts.  `gen`
gives the settled `generateReviewReply` result for each snapshot review. -/
def autoGenerateAll (s : DashState) (gen : GoogleReview → Except String String) :
    DashState :=
  let pendingReviews := s.reviews.filter fun r => r.status = .pending
  pendingReviews.foldl (fun st review => (generateReply st review.id (gen review)).1) s

/-- Function `postReply` of `Dashboard.tsx`.  `postResult` is the settled result of
`postReplyToGoogle accessToken reviewId content`.  On success every review
whose `id` equals `reviewId` gets `status := replied` — note the code writes
no other field; on failure the catch block only fires the quota/CORS alert and
the review list is untouched.  The returned `Bool` is `false` exactly when
that alert fired; `finally` clears `processingId` on both paths. -/
def postReply (s : DashState) (reviewId : String) (content : String)
    (postResult : Except String Bool) : DashState × Bool :=
  match postResult with
  | .ok _ =>
      ({ s with
          reviews := s.reviews.map fun r =>
            if r.id = reviewId then { r with status := .replied } else r,
          processingId := none }, true)
  | .error _ =>
      ({ s with processingId := none }, false)

/-- Function `handleReplyChange` of `Dashboard.tsx`: every review whose `id` equals
`id` gets `replyContent := text`; nothing else changes. -/
def handleReplyChange (s : DashState) (id : String) (text : String) : DashState :=
  { s with
      reviews := s.reviews.map fun r =>
        if r.id = id then { r with replyContent := some text } else r }

/-- The reply-content invariant of spec §3: a `pending` item has no
`replyContent`; a `drafted` or `replied` item has one (possibly empty). -/
def replyInvariant (r : GoogleReview) : Prop :=
  (r.status = .pending → r.replyContent = none) ∧
  (r.status = .drafted → r.replyContent.isSome = true) ∧
  (r.status = .replied → r.replyContent.isSome = true)

instance (r : GoogleReview) : Decidable (replyInvariant r) :=
  decidable_of_iff
    ((r.status = .pending → r.replyContent = none) ∧
     (r.status = .drafted → r.replyContent.isSome = true) ∧
     (r.status = .replied → r.replyContent.isSome = true)) Iff.rfl

/-- The reply-content invariant over the whole store. -/
def storeInvariant (s : DashState) : Prop :=
  ∀ r ∈ s.reviews, replyInvariant r

instance (s : DashState) : Decidable (storeInvariant s) :=
  decidable_of_iff (∀ r ∈ s.reviews, replyInvariant r) Iff.rfl

/-- Every review of the store carrying the given id has the given status
(spec §4.2 phrases the validity of an operation as a condition on the status
of its target). -/
def targetsOnly (s : DashState) (id : String) (st : ReviewStatus) : Prop :=
  ∀ r ∈ s.reviews, r.id = id → r.status = st

instance (s : DashState) (id : String) (st : ReviewStatus) :
    Decidable (targetsOnly s id st) :=
  decidable_of_iff (∀ r ∈ s.reviews, r.id = id → r.status = st) Iff.rfl

/-- The operations the dashboard offers on existing items, each carrying the
settled outcome of its external call. -/
inductive Op where
  | generate (id : String) (genResult : Except String String)
  | publish (id : String) (text : String) (postResult : Except String Bool)
  | edit (id : String) (text : String)
  | batch (gen : GoogleReview → Except String String)

/-- Run one dashboard operation. -/
def applyOp (s : DashState) : Op → DashState
  | .generate id g => (generateReply s id g).1
  | .publish id text p => (postReply s id text p).1
  | .edit id text => handleReplyChange s id text
  | .batch gen => autoGenerateAll s gen

/-- Run a sequence of dashboard operations in order. -/
def applyOps : DashState → List Op → DashState
  | s, [] => s
  | s, op :: ops => applyOps (applyOp s op) ops

/-- Validity of an operation in a state, per spec §4.2: `generate` is only
valid when its target is `pending` or `drafted`; `publish` and `edit` only
when their target is `drafted`; the batch path picks its own targets. -/
def validOp (s : DashState) : Op → Prop
  | .generate id _ => ∀ r ∈ s.reviews, r.id = id → (r.status = .pending ∨ r.status = .drafted)
  | .publish id _ _ => targetsOnly s id .drafted
  | .edit id _ => targetsOnly s id .drafted
  | .batch _ => True

instance validOpDec (s : DashState) : (op : Op) → Decidable (validOp s op)
  | .generate id _ =>
      decidable_of_iff
        (∀ r ∈ s.reviews, r.id = id → (r.status = .pending ∨ r.status = .drafted)) Iff.rfl
  | .publish id _ _ => decidable_of_iff (targetsOnly s id .drafted) Iff.rfl
  | .edit id _ => decidable_of_iff (targetsOnly s id .drafted) Iff.rfl
  | .batch _ => isTrue trivial

/-- A sequence of operations each valid in the state where it runs. -/
def validTrace : DashState → List Op → Prop
  | _, [] => True
  | s, op :: ops => validOp s op ∧ validTrace (applyOp s op) ops

instance validTraceDec : (s : DashState) → (ops : List Op) → Decidable (validTrace s ops)
  | _, [] => isTrue trivial
  | s, op :: ops =>
      haveI := validTraceDec (applyOp s op) ops
      decidable_of_iff (validOp s op ∧ validTrace (applyOp s op) ops) Iff.rfl

/-- The per-snapshot-element list update performed by one iteration of the
batch loop (characterization helper for `autoGenerateAll`). -/
def genUpdate (gen : GoogleReview → Except String String) (p r : GoogleReview) :
    GoogleReview :=
  match gen p with
  | .ok t => if r.id = p.id then { r with status := .drafted, replyContent := some t } else r
  | .error _ => r

/-- Expected end state of one review under the batch operation: a `pending`
review moves to `drafted` with its generated text when its generation
succeeds, stays put when it fails; a non-`pending` review is untouched. -/
def batchOutcome (gen : GoogleReview → Except String String) (r : GoogleReview) :
    GoogleReview :=
  if r.status = .pending then
    match gen r with
    | .ok t => { r with status := .drafted, replyContent := some t }
    | .error _ => r
  else r

/-! ### Concrete fixtures used by witnesses and counterexamples -/

/-- A review with the given id, status and reply content and fixed display
fields. -/
def mkReview (id : String) (st : ReviewStatus) (rc : Option String) : GoogleReview :=
  { id := id, reviewId := id, reviewerName := "Alice", reviewerAvatar := none,
    rating := 5, content := "Great food!", date := "1/1/2024",
    status := st, replyContent := rc }

/-- A dashboard state holding the given reviews and quiescent UI flags. -/
def baseState (rs : List GoogleReview) : DashState :=
  { reviews := rs, loading := false, error := none, processingId := none }

def pendingState : DashState :=
  baseState [mkReview "r1" .pending none]

def draftedState : DashState :=
  baseState [mkReview "r1" .drafted (some "Our old draft")]

def invState : DashState :=
  baseState [mkReview "p1" .pending none, mkReview "d1" .drafted (some "A draft")]

def sampleReplied : GoogleReview :=
  mkReview "r2" .replied (some "Posted reply")

def repliedState : DashState :=
  baseState [sampleReplied, mkReview "r3" .drafted (some "Draft text")]

def opsFixture : List Op :=
  [Op.edit "r3" "Updated text",
   Op.publish "r3" "Updated text" (Except.ok true),
   Op.generate "zz" (Except.ok "T"),
   Op.batch (fun _ => Except.error "down")]

def batchState : DashState :=
  baseState [mkReview "a1" .pending none, mkReview "b1" .pending none,
             mkReview "c1" .replied (some "Thanks")]

def batchGenFixture : GoogleReview → Except String String :=
  fun r => if r.id = "a1" then Except.ok "Thanks so much!" else Except.error "quota"

/-! ### Helper lemmas -/

lemma indexOfFrom_eq_neg_one (xs : List String) (s : String) (i : Int)
    (h : s ∉ xs) : indexOfFrom xs s i = -1 := by
  induction xs generalizing i with
  | nil => rfl
  | cons x rest ih =>
      simp only [indexOfFrom]
      rw [if_neg]
      · exact ih (i + 1) fun hm => h (List.mem_cons_of_mem _ hm)
      · intro hx
        exact h (hx ▸ List.mem_cons_self x rest)

lemma length_pos_of_ne_empty (s : String) (h : s ≠ "") : 0 < s.length := by
  cases s with
  | mk data =>
      cases data with
      | nil => exact absurd rfl h
      | cons c cs => simp [String.length]

lemma replyInvariant_mapSource (r : SourceReview) : replyInvariant (mapSourceReview r) := by
  cases hr : r.reviewReply <;> simp [replyInvariant, mapSourceReview, hr]

lemma loadReviews_preserves_inv (s : DashState)
    (outcome : Except Unit (Option (List SourceReview))) (hs : storeInvariant s) :
    storeInvariant (loadReviews s (fetchGoogleReviews outcome)) := by
  match outcome with
  | .error _ => exact hs
  | .ok none => intro r hr; exact absurd hr (List.not_mem_nil r)
  | .ok (some rs) =>
      intro r hr
      obtain ⟨src, _, rfl⟩ := List.mem_map.mp hr
      exact replyInvariant_mapSource src

lemma generateReply_preserves_inv (s : DashState) (id : String)
    (g : Except String String) (hs : storeInvariant s) :
    storeInvariant (generateReply s id g).1 := by
  match g with
  | .error _ => exact hs
  | .ok reply =>
      intro r' hr'
      obtain ⟨r, hr, rfl⟩ := List.mem_map.mp hr'
      by_cases hid : r.id = id
      · simp [replyInvariant, if_pos hid]
      · simpa [if_neg hid] using hs r hr

lemma postReply_preserves_inv (s : DashState) (id text : String)
    (p : Except String Bool) (hs : storeInvariant s)
    (hv : targetsOnly s id .drafted) :
    storeInvariant (postReply s id text p).1 := by
  match p with
  | .error _ => exact hs
  | .ok b =>
      intro r' hr'
      obtain ⟨r, hr, rfl⟩ := List.mem_map.mp hr'
      by_cases hid : r.id = id
      · have hdraft : r.status = .drafted := hv r hr hid
        have hsome : r.replyContent.isSome = true := (hs r hr).2.1 hdraft
        simp [replyInvariant, if_pos hid, hsome]
      · simpa [if_neg hid] using hs r hr

lemma handleReplyChange_preserves_inv (s : DashState) (id text : String)
    (hs : storeInvariant s) (hv : targetsOnly s id .drafted) :
    storeInvariant (handleReplyChange s id text) := by
  intro r' hr'
  obtain ⟨r, hr, rfl⟩ := List.mem_map.mp hr'
  by_cases hid : r.id = id
  · have hdraft : r.status = .drafted := hv r hr hid
    simp [replyInvariant, if_pos hid, hdraft]
  · simpa [if_neg hid] using hs r hr

lemma foldl_generate_preserves_inv (gen : GoogleReview → Except String String) :
    ∀ (P : List GoogleReview) (st : DashState), storeInvariant st →
      storeInvariant (P.foldl (fun st rv => (generateReply st rv.id (gen rv)).1) st)
  | [], _, h => h
  | p :: P, st, h =>
      foldl_generate_preserves_inv gen P ((generateReply st p.id (gen p)).1)
        (generateReply_preserves_inv st p.id (gen p) h)

lemma autoGenerateAll_preserves_inv (s : DashState)
    (gen : GoogleReview → Except String String) (hs : storeInvariant s) :
    storeInvariant (autoGenerateAll s gen) :=
  foldl_generate_preserves_inv gen (s.reviews.filter fun r => r.status = .pending) s hs

/-! ### Claim theorems -/

/-- C8: `fetchGoogleReviews` maps the 6-value star-rating enumeration exactly
to the integers 0..5 (in particular `"FOUR"` to `4`), maps every unrecognized
value to `-1` (JavaScript `indexOf` not-found) instead of throwing, and an
unrecognized rating never makes the load fail: a successful fetch always
yields the mapped review list. -/
theorem starRating_mapping_exact :
    (jsIndexOf starRatingValues "ZERO" = 0 ∧ jsIndexOf starRatingValues "ONE" = 1 ∧
     jsIndexOf starRatingValues "TWO" = 2 ∧ jsIndexOf starRatingValues "THREE" = 3 ∧
     jsIndexOf starRatingValues "FOUR" = 4 ∧ jsIndexOf starRatingValues "FIVE" = 5) ∧
    (∀ s, s ∉ starRatingValues → jsIndexOf starRatingValues s = -1) ∧
    (∀ rs, fetchGoogleReviews (Except.ok (some rs)) = Except.ok (rs.map mapSourceReview)) ∧
    (∀ r : SourceReview, (mapSourceReview r).rating = jsIndexOf starRatingValues r.starRating) := by
  refine ⟨by decide, fun s hs => indexOfFrom_eq_neg_one _ _ _ hs, fun rs => rfl, fun r => rfl⟩

/-- C8 witness: the concrete unrecognized value `"STAR_RATING_UNSPECIFIED"`
maps to `-1` and a fetch carrying it still succeeds. -/
theorem starRating_mapping_exact_witness :
    ("STAR_RATING_UNSPECIFIED" ∉ starRatingValues) ∧
    jsIndexOf starRatingValues "STAR_RATING_UNSPECIFIED" = -1 ∧
    jsIndexOf starRatingValues "FOUR" = 4 := by
  refine ⟨by decide, starRating_mapping_exact.2.1 _ (by decide),
    starRating_mapping_exact.1.2.2.2.2.1⟩

/-- C9 counterexample: when the text-generation call succeeds with an empty
result, `generateReviewReply` does **not** fail — it returns normally with the
fallback text, so the claim that an empty result yields `GenerationFailed` is
false. -/
theorem generateReviewReply_empty_returns_fallback :
    generateReviewReply (Except.ok (some "")) = Except.ok genFallbackMsg ∧
    (generateReviewReply (Except.ok (some ""))).isOk = true :=
  ⟨rfl, rfl⟩

/-- C9 amended: `generateReviewReply` fails with the generation-failure error
exactly when the underlying text-generation call fails; when the call returns
an empty or absent result it returns the non-empty fallback text instead of
failing; and it never returns normally with an empty generation. -/
theorem generateReviewReply_spec :
    (∀ e, generateReviewReply (Except.error e) = Except.error genFailureMsg) ∧
    (∀ t, ∃ out, generateReviewReply (Except.ok t) = Except.ok out ∧ 0 < out.length) ∧
    generateReviewReply (Except.ok none) = Except.ok genFallbackMsg ∧
    generateReviewReply (Except.ok (some "")) = Except.ok genFallbackMsg := by
  refine ⟨fun e => rfl, fun t => ?_, rfl, rfl⟩
  match t with
  | none => exact ⟨genFallbackMsg, rfl, by decide⟩
  | some s =>
      by_cases hs : s = ""
      · exact ⟨genFallbackMsg, by simp [generateReviewReply, hs], by decide⟩
      · exact ⟨s, by simp [generateReviewReply, hs], length_pos_of_ne_empty s hs⟩

/-- C7: when the fetch fails, `loadReviews` leaves the review collection
exactly as it was (the last-good snapshot), and surfaces the failure by
setting the error message; in particular this holds for the concrete
source-unavailable error thrown by `fetchGoogleReviews`. -/
theorem loadReviews_failure_preserves_store (s : DashState) (msg : String) :
    (loadReviews s (Except.error msg)).reviews = s.reviews ∧
    (loadReviews s (Except.error msg)).error.isSome = true ∧
    (loadReviews s (fetchGoogleReviews (Except.error ()))).reviews = s.reviews ∧
    (loadReviews s (fetchGoogleReviews (Except.error ()))).error =
      some "Failed to fetch reviews. Ensure API is enabled in GCP." :=
  ⟨rfl, rfl, rfl, rfl⟩

/-- C5: a `generateReply` whose generator invocation fails and a `postReply`
whose remote call fails both leave every review — status and reply content —
exactly unchanged (so a pending item stays pending with no reply content, and
a drafted item keeps its exact draft), and both report the failure to the
caller (the returned flag is `false`, the path that fires the failure
alert). -/
theorem failed_calls_leave_items_unchanged (s : DashState) (id text msg : String) :
    ((generateReply s id (Except.error msg)).1.reviews = s.reviews ∧
     (generateReply s id (Except.error msg)).2 = false) ∧
    ((postReply s id text (Except.error msg)).1.reviews = s.reviews ∧
     (postReply s id text (Except.error msg)).2 = false) :=
  ⟨⟨rfl, rfl⟩, ⟨rfl, rfl⟩⟩

/-- C4 (code evaluated at the failing input): `postReply` has no pending-state
guard.  On a store holding a single `pending` item, calling it with a
succeeding remote call silently proceeds — it reports success and transitions
the pending item to `replied` (with its reply content still absent) instead of
failing with `InvalidState`. -/
theorem postReply_pending_not_guarded :
    (postReply pendingState "r1" "Thanks for visiting" (Except.ok true)).2 = true ∧
    (postReply pendingState "r1" "Thanks for visiting" (Except.ok true)).1.reviews =
      [mkReview "r1" .replied none] :=
  ⟨rfl, rfl⟩

/-- C6 counterexample: a successful `postReply` does not write the submitted
text into the item.  On a store holding a drafted item whose current draft is
`"Our old draft"`, publishing the different text `"An edited reply"` leaves
`replyContent = some "Our old draft"` (the claim demands
`some "An edited reply"`), while the status does become `replied`. -/
theorem postReply_does_not_write_text :
    (postReply draftedState "r1" "An edited reply" (Except.ok true)).1.reviews =
      [mkReview "r1" .replied (some "Our old draft")] ∧
    decide ((some "Our old draft" : Option String) = some "An edited reply") = false :=
  ⟨rfl, by decide⟩

/-- C6 amended: a successful publish sets the item's status to `replied` and
leaves its `replyContent` unchanged; hence when the submitted text equals the
item's current draft — which is how the dashboard always invokes it, passing
`review.replyContent` — the item ends at `replied` with `replyContent` equal
to the submitted text. -/
theorem postReply_success_sets_replied (s : DashState) (id text : String) (b : Bool)
    (r : GoogleReview) (hr : r ∈ s.reviews) (hid : r.id = id)
    (hrc : r.replyContent = some text) :
    { r with status := ReviewStatus.replied } ∈ (postReply s id text (Except.ok b)).1.reviews ∧
    ({ r with status := ReviewStatus.replied } : GoogleReview).status = .replied ∧
    ({ r with status := ReviewStatus.replied } : GoogleReview).replyContent = some text := by
  refine ⟨?_, rfl, hrc⟩
  have hmem := List.mem_map_of_mem
    (fun r' => if r'.id = id then { r' with status := ReviewStatus.replied } else r') hr
  simpa [postReply, if_pos hid] using hmem

/-- C6 witness: publishing the current draft of a concrete drafted item yields
that item at `replied` carrying exactly the submitted text. -/
theorem postReply_success_sets_replied_witness :
    (mkReview "r1" .drafted (some "Our old draft") ∈ draftedState.reviews ∧
     (mkReview "r1" .drafted (some "Our old draft")).id = "r1" ∧
     (mkReview "r1" .drafted (some "Our old draft")).replyContent = some "Our old draft") ∧
    ({ mkReview "r1" .drafted (some "Our old draft") with status := ReviewStatus.replied } ∈
       (postReply draftedState "r1" "Our old draft" (Except.ok true)).1.reviews ∧
     ({ mkReview "r1" .drafted (some "Our old draft") with status := ReviewStatus.replied } :
        GoogleReview).status = .replied ∧
     ({ mkReview "r1" .drafted (some "Our old draft") with status := ReviewStatus.replied } :
        GoogleReview).replyContent = some "Our old draft") :=
  ⟨⟨by decide, by decide, by decide⟩,
   postReply_success_sets_replied draftedState "r1" "Our old draft" true
     (mkReview "r1" .drafted (some "Our old draft")) (by decide) (by decide) (by decide)⟩

/-- C2: the reply-content invariant (`pending` ⇒ no `replyContent`;
`drafted`/`replied` ⇒ `replyContent` present) is preserved by every
controller call, on its success and on its failure path alike: load (with any
fetch outcome), generate (with any generator outcome), publish and edit (under
their §4.2 validity condition that the targeted item is `drafted`), and the
batch draft (with any per-item generator outcomes). -/
theorem controller_calls_preserve_invariant (s : DashState) (hs : storeInvariant s) :
    (∀ outcome, storeInvariant (loadReviews s (fetchGoogleReviews outcome))) ∧
    (∀ id g, storeInvariant (generateReply s id g).1) ∧
    (∀ id text p, targetsOnly s id .drafted → storeInvariant (postReply s id text p).1) ∧
    (∀ id text, targetsOnly s id .drafted → storeInvariant (handleReplyChange s id text)) ∧
    (∀ gen, storeInvariant (autoGenerateAll s gen)) :=
  ⟨fun outcome => loadReviews_preserves_inv s outcome hs,
   fun id g => generateReply_preserves_inv s id g hs,
   fun id text p hv => postReply_preserves_inv s id text p hs hv,
   fun id text hv => handleReplyChange_preserves_inv s id text hs hv,
   fun gen => autoGenerateAll_preserves_inv s gen hs⟩

/-- C2 witness: on a concrete store holding one pending and one drafted item,
the invariant holds after a failing load, a successful generate, a successful
publish of the drafted item, an edit of the drafted item, and a batch draft
whose single generation fails. -/
theorem controller_calls_preserve_invariant_witness :
    (storeInvariant invState ∧ targetsOnly invState "d1" .drafted) ∧
    storeInvariant (loadReviews invState (fetchGoogleReviews (Except.error ()))) ∧
    storeInvariant (generateReply invState "p1" (Except.ok "Thank you!")).1 ∧
    storeInvariant (postReply invState "d1" "A draft" (Except.ok true)).1 ∧
    storeInvariant (handleReplyChange invState "d1" "Better draft") ∧
    storeInvariant (autoGenerateAll invState batchGenFixture) :=
  ⟨⟨by decide, by decide⟩,
   (controller_calls_preserve_invariant invState (by decide)).1 (Except.error ()),
   (controller_calls_preserve_invariant invState (by decide)).2.1 "p1" (Except.ok "Thank you!"),
   (controller_calls_preserve_invariant invState (by decide)).2.2.1 "d1" "A draft"
     (Except.ok true) (by decide),
   (controller_calls_preserve_invariant invState (by decide)).2.2.2.1 "d1" "Better draft"
     (by decide),
   (controller_calls_preserve_invariant invState (by decide)).2.2.2.2 batchGenFixture⟩

lemma genUpdate_id (gen : GoogleReview → Except String String) (p r : GoogleReview) :
    (genUpdate gen p r).id = r.id := by
  cases hgp : gen p with
  | ok t => simp only [genUpdate, hgp]; split <;> rfl
  | error e => simp [genUpdate, hgp]

lemma foldl_generate_reviews (gen : GoogleReview → Except String String) :
    ∀ (P : List GoogleReview) (st : DashState),
      (P.foldl (fun st rv => (generateReply st rv.id (gen rv)).1) st).reviews =
        P.foldl (fun l p => l.map (genUpdate gen p)) st.reviews
  | [], _ => rfl
  | p :: P, st => by
      have hstep : ((generateReply st p.id (gen p)).1).reviews = st.reviews.map (genUpdate gen p) := by
        cases hgp : gen p with
        | ok t =>
            simp only [hgp, generateReply]
            exact List.map_congr_left fun r _ => by simp [genUpdate, hgp]
        | error e =>
            simp only [hgp, generateReply]
            rw [show List.map (genUpdate gen p) st.reviews =
                  List.map (fun r => r) st.reviews from
                List.map_congr_left fun r _ => by simp [genUpdate, hgp],
              List.map_id']
      rw [List.foldl_cons, List.foldl_cons, foldl_generate_reviews gen P, hstep]

lemma foldl_map_comm (gen : GoogleReview → Except String String) :
    ∀ (P : List GoogleReview) (l : List GoogleReview),
      P.foldl (fun l p => l.map (genUpdate gen p)) l =
        l.map (fun r => P.foldl (fun r p => genUpdate gen p r) r)
  | [], l => by simp
  | p :: P, l => by
      rw [List.foldl_cons, foldl_map_comm gen P, List.map_map]
      rfl

lemma foldl_genUpdate_of_ne (gen : GoogleReview → Except String String) :
    ∀ (P : List GoogleReview) (r : GoogleReview), (∀ p ∈ P, p.id ≠ r.id) →
      P.foldl (fun r p => genUpdate gen p r) r = r
  | [], _, _ => rfl
  | p :: P, r, h => by
      have h1 : genUpdate gen p r = r := by
        cases hgp : gen p with
        | ok t =>
            simp only [genUpdate, hgp]
            rw [if_neg fun he : r.id = p.id => h p (List.mem_cons_self p P) he.symm]
        | error e => simp [genUpdate, hgp]
      rw [List.foldl_cons, h1]
      exact foldl_genUpdate_of_ne gen P r fun q hq => h q (List.mem_cons_of_mem p hq)

lemma foldl_genUpdate_of_mem (gen : GoogleReview → Except String String) :
    ∀ (P : List GoogleReview) (r : GoogleReview),
      (P.map (·.id)).Nodup → r ∈ P →
      P.foldl (fun r p => genUpdate gen p r) r = genUpdate gen r r
  | [], r, _, hr => absurd hr (List.not_mem_nil r)
  | p :: P, r, hnd, hr => by
      have hhead : p.id ∉ P.map (·.id) := (List.nodup_cons.mp hnd).1
      by_cases hpr : p.id = r.id
      · have hrp : r = p := by
          rcases List.mem_cons.mp hr with h | h
          · exact h
          · exact absurd (hpr ▸ List.mem_map_of_mem (·.id) h) hhead
        subst hrp
        rw [List.foldl_cons]
        apply foldl_genUpdate_of_ne
        intro q hq
        rw [genUpdate_id]
        intro he
        exact hhead (he ▸ List.mem_map_of_mem (·.id) hq)
      · have h1 : genUpdate gen p r = r := by
          cases hgp : gen p with
          | ok t =>
              simp only [genUpdate, hgp]
              rw [if_neg fun he : r.id = p.id => hpr he.symm]
          | error e => simp [genUpdate, hgp]
        have hrP : r ∈ P := by
          rcases List.mem_cons.mp hr with h | h
          · exact absurd (by rw [h]) hpr
          · exact h
        rw [List.foldl_cons, h1]
        exact foldl_genUpdate_of_mem gen P r (List.nodup_cons.mp hnd).2 hrP

/-- C1: on a store with unique review ids (the id is the store's key), the
batch operation is exactly the per-item map over the snapshot of currently
`pending` reviews, processed by the sequential fold the code's for-await loop
performs: every pending review whose generation succeeds ends `drafted` with
its generated text, every pending review whose generation fails is left
exactly as it was (the failure is swallowed and the remaining items are still
attempted), and every review that was not `pending` at snapshot time is left
untouched. -/
theorem autoGenerateAll_batch_contract (s : DashState)
    (gen : GoogleReview → Except String String)
    (hnd : (s.reviews.map (·.id)).Nodup) :
    (autoGenerateAll s gen).reviews = s.reviews.map (batchOutcome gen) := by
  have hunfold : autoGenerateAll s gen =
      (s.reviews.filter fun r => r.status = .pending).foldl
        (fun st review => (generateReply st review.id (gen review)).1) s := rfl
  rw [hunfold, foldl_generate_reviews, foldl_map_comm]
  apply List.map_congr_left
  intro r hr
  by_cases hp : r.status = .pending
  · have hrP : r ∈ s.reviews.filter fun r => r.status = .pending :=
      List.mem_filter.mpr ⟨hr, by simp [hp]⟩
    have hndP : (((s.reviews.filter fun r => r.status = .pending).map (·.id))).Nodup :=
      ((List.filter_sublist s.reviews).map (·.id)).nodup hnd
    rw [foldl_genUpdate_of_mem gen _ r hndP hrP]
    cases hgr : gen r with
    | ok t => simp [genUpdate, batchOutcome, hgr, hp]
    | error e => simp [genUpdate, batchOutcome, hgr, hp]
  · rw [foldl_genUpdate_of_ne]
    · simp [batchOutcome, hp]
    · intro p hpP he
      have hpmem : p ∈ s.reviews := (List.mem_filter.mp hpP).1
      have hpp : p.status = .pending := of_decide_eq_true (List.mem_filter.mp hpP).2
      have : p = r := List.inj_on_of_nodup_map hnd hpmem hr he
      exact hp (this ▸ hpp)

/-- C1 witness: over a concrete store where `a1` and `b1` are pending and `c1`
is replied, with a generator that succeeds on `a1` and fails on `b1`, the
batch yields `a1` drafted with the generated text, `b1` still pending with no
reply content, and `c1` untouched. -/
theorem autoGenerateAll_batch_contract_witness :
    (batchState.reviews.map (·.id)).Nodup ∧
    (autoGenerateAll batchState batchGenFixture).reviews =
      [mkReview "a1" .drafted (some "Thanks so much!"), mkReview "b1" .pending none,
       mkReview "c1" .replied (some "Thanks")] :=
  ⟨by decide, by
    rw [autoGenerateAll_batch_contract batchState batchGenFixture (by decide)]
    decide⟩

lemma map_ids_eq (l : List GoogleReview) (f : GoogleReview → GoogleReview)
    (hf : ∀ r, (f r).id = r.id) : (l.map f).map (·.id) = l.map (·.id) := by
  rw [List.map_map]
  exact List.map_congr_left fun r _ => hf r

lemma mapped_preserves_replied (rid : String) (l : List GoogleReview)
    (f : GoogleReview → GoogleReview)
    (hfid : ∀ r, (f r).id = r.id)
    (hfst : ∀ r, r.id = rid → r.status = .replied → (f r).status = .replied)
    (hall : ∀ r ∈ l, r.id = rid → r.status = .replied)
    (hex : rid ∈ l.map (·.id)) :
    (∀ r' ∈ l.map f, r'.id = rid → r'.status = .replied) ∧
    rid ∈ (l.map f).map (·.id) := by
  constructor
  · intro r' hr' hrid
    obtain ⟨r, hr, rfl⟩ := List.mem_map.mp hr'
    have hid : r.id = rid := (hfid r).symm.trans hrid
    exact hfst r hid (hall r hr hid)
  · rw [map_ids_eq l f hfid]
    exact hex

lemma foldl_generate_preserves_replied (gen : GoogleReview → Except String String)
    (rid : String) :
    ∀ (P : List GoogleReview) (st : DashState),
      (∀ p ∈ P, p.id ≠ rid) →
      (∀ r ∈ st.reviews, r.id = rid → r.status = .replied) →
      rid ∈ st.reviews.map (·.id) →
      (∀ r ∈ (P.foldl (fun st rv => (generateReply st rv.id (gen rv)).1) st).reviews,
        r.id = rid → r.status = .replied) ∧
      rid ∈ (P.foldl (fun st rv => (generateReply st rv.id (gen rv)).1) st).reviews.map (·.id)
  | [], _, _, hall, hex => ⟨hall, hex⟩
  | p :: P, st, hne, hall, hex => by
      rw [List.foldl_cons]
      have hstep :
          (∀ r ∈ ((generateReply st p.id (gen p)).1).reviews, r.id = rid → r.status = .replied) ∧
          rid ∈ ((generateReply st p.id (gen p)).1).reviews.map (·.id) := by
        cases hg : gen p with
        | error e => exact ⟨hall, hex⟩
        | ok t =>
            refine mapped_preserves_replied rid st.reviews _
              (fun r => by split <;> rfl)
              (fun r hidr hrep => ?_) hall hex
            have hne' : r.id ≠ p.id := by
              rw [hidr]
              exact fun he => hne p (List.mem_cons_self p P) he.symm
            rw [if_neg hne']
            exact hrep
      exact foldl_generate_preserves_replied gen rid P _
        (fun q hq => hne q (List.mem_cons_of_mem p hq)) hstep.1 hstep.2

lemma applyOp_preserves_replied (rid : String) (s : DashState) (op : Op)
    (hv : validOp s op)
    (hall : ∀ r ∈ s.reviews, r.id = rid → r.status = .replied)
    (hex : rid ∈ s.reviews.map (·.id)) :
    (∀ r ∈ (applyOp s op).reviews, r.id = rid → r.status = .replied) ∧
    rid ∈ (applyOp s op).reviews.map (·.id) := by
  match op with
  | .generate id g =>
      cases hg : g with
      | error e => exact ⟨hall, hex⟩
      | ok t =>
          by_cases hid : id = rid
          · exfalso
            obtain ⟨r0, hr0, hid0⟩ := List.mem_map.mp hex
            have hval := hv r0 hr0 (hid0.trans hid.symm)
            have hrep := hall r0 hr0 hid0
            rw [hrep] at hval
            rcases hval with h | h <;> exact ReviewStatus.noConfusion h
          · refine mapped_preserves_replied rid s.reviews _
              (fun r => by split <;> rfl)
              (fun r hidr hrep => ?_) hall hex
            have hne' : r.id ≠ id := fun he => hid ((he.symm.trans hidr))
            rw [if_neg hne']
            exact hrep
  | .publish id text p =>
      cases hp : p with
      | error e => exact ⟨hall, hex⟩
      | ok b =>
          refine mapped_preserves_replied rid s.reviews _
            (fun r => by split <;> rfl)
            (fun r hidr hrep => ?_) hall hex
          by_cases h : r.id = id
          · rw [if_pos h]
          · rw [if_neg h]
            exact hrep
  | .edit id text =>
      refine mapped_preserves_replied rid s.reviews _
        (fun r => by split <;> rfl)
        (fun r hidr hrep => ?_) hall hex
      by_cases h : r.id = id
      · rw [if_pos h]
        exact hrep
      · rw [if_neg h]
        exact hrep
  | .batch gen =>
      have hunfold : applyOp s (.batch gen) =
          (s.reviews.filter fun r => r.status = .pending).foldl
            (fun st rv => (generateReply st rv.id (gen rv)).1) s := rfl
      rw [hunfold]
      refine foldl_generate_preserves_replied gen rid _ s (fun p hpP he => ?_) hall hex
      have hpmem : p ∈ s.reviews := (List.mem_filter.mp hpP).1
      have hpp : p.status = .pending := of_decide_eq_true (List.mem_filter.mp hpP).2
      have hprep := hall p hpmem he
      rw [hprep] at hpp
      exact ReviewStatus.noConfusion hpp

lemma applyOps_preserves_replied (rid : String) :
    ∀ (ops : List Op) (s : DashState), validTrace s ops →
      (∀ r ∈ s.reviews, r.id = rid → r.status = .replied) →
      rid ∈ s.reviews.map (·.id) →
      (∀ r ∈ (applyOps s ops).reviews, r.id = rid → r.status = .replied) ∧
      rid ∈ (applyOps s ops).reviews.map (·.id)
  | [], _, _, hall, hex => ⟨hall, hex⟩
  | op :: ops, s, hv, hall, hex => by
      have hstep := applyOp_preserves_replied rid s op hv.1 hall hex
      exact applyOps_preserves_replied rid ops (applyOp s op) hv.2 hstep.1 hstep.2

/-- C3: `replied` is absorbing.  On a store with unique review ids, for every
sequence of offered operations (generate, publish, edit, batch draft) each
invoked under its §4.2 validity condition, an item that is `replied` before
the sequence is still present afterwards and every item carrying its id is
still `replied`: no operation sequence transitions it out of `replied`. -/
theorem replied_is_absorbing (s : DashState) (ops : List Op)
    (hnd : (s.reviews.map (·.id)).Nodup) (hv : validTrace s ops)
    (r : GoogleReview) (hr : r ∈ s.reviews) (hst : r.status = .replied) :
    (∀ r' ∈ (applyOps s ops).reviews, r'.id = r.id → r'.status = .replied) ∧
    r.id ∈ (applyOps s ops).reviews.map (·.id) := by
  apply applyOps_preserves_replied r.id ops s hv _ (List.mem_map_of_mem (·.id) hr)
  intro r' hr' hid
  have heq : r' = r := List.inj_on_of_nodup_map hnd hr' hr hid
  rw [heq]
  exact hst

/-- C3 witness: on a concrete store with a replied item `r2` and a drafted
item `r3`, the valid sequence (edit `r3`; publish `r3`; generate a missing id;
batch with a failing generator) leaves `r2`'s item `replied`. -/
theorem replied_is_absorbing_witness :
    ((repliedState.reviews.map (·.id)).Nodup ∧ validTrace repliedState opsFixture ∧
     sampleReplied ∈ repliedState.reviews ∧ sampleReplied.status = .replied) ∧
    ((∀ r' ∈ (applyOps repliedState opsFixture).reviews,
        r'.id = sampleReplied.id → r'.status = .replied) ∧
     sampleReplied.id ∈ (applyOps repliedState opsFixture).reviews.map (·.id)) :=
  ⟨⟨by decide, by decide, by decide, by decide⟩,
   replied_is_absorbing repliedState opsFixture (by decide) (by decide)
     sampleReplied (by decide) (by decide)⟩

lemma forall₂_map_frame (l : List GoogleReview) (tid : String)
    (f : GoogleReview → GoogleReview) (hf : ∀ r, r.id ≠ tid → f r = r) :
    List.Forall₂ (fun r r' => r.id ≠ tid → r' = r) l (l.map f) := by
  rw [List.forall₂_map_right_iff, List.forall₂_same]
  exact fun r _ hne => hf r hne

lemma map_frame_eq (l : List GoogleReview) (tid : String)
    (f : GoogleReview → GoogleReview) (hf : ∀ r, r.id ≠ tid → f r = r)
    (hnone : ∀ r ∈ l, r.id ≠ tid) : l.map f = l := by
  rw [show l.map f = l.map (fun r => r) from
    List.map_congr_left fun r hr => hf r (hnone r hr), List.map_id']

/-- C10: the success paths of generate, publish and edit mutate only the item
whose id matches the targeted id — every other item of the collection is
returned identical in every field (stated positionally over the whole list) —
and when no item of the current collection carries the targeted id, the whole
collection is left unchanged and the operation still reports success (a
silent no-op, not an error). -/
theorem success_paths_mutate_only_target (s : DashState) (tid t text : String) (b : Bool) :
    List.Forall₂ (fun r r' => r.id ≠ tid → r' = r) s.reviews
      (generateReply s tid (Except.ok t)).1.reviews ∧
    List.Forall₂ (fun r r' => r.id ≠ tid → r' = r) s.reviews
      (postReply s tid text (Except.ok b)).1.reviews ∧
    List.Forall₂ (fun r r' => r.id ≠ tid → r' = r) s.reviews
      (handleReplyChange s tid text).reviews ∧
    ((∀ r ∈ s.reviews, r.id ≠ tid) →
      (generateReply s tid (Except.ok t)).1.reviews = s.reviews ∧
      (generateReply s tid (Except.ok t)).2 = true ∧
      (postReply s tid text (Except.ok b)).1.reviews = s.reviews ∧
      (postReply s tid text (Except.ok b)).2 = true ∧
      (handleReplyChange s tid text).reviews = s.reviews) := by
  refine ⟨forall₂_map_frame s.reviews tid _ (fun r hne => if_neg hne),
    forall₂_map_frame s.reviews tid _ (fun r hne => if_neg hne),
    forall₂_map_frame s.reviews tid _ (fun r hne => if_neg hne),
    fun hnone => ⟨?_, rfl, ?_, rfl, ?_⟩⟩
  · exact map_frame_eq s.reviews tid _ (fun r hne => if_neg hne) hnone
  · exact map_frame_eq s.reviews tid _ (fun r hne => if_neg hne) hnone
  · exact map_frame_eq s.reviews tid _ (fun r hne => if_neg hne) hnone

/-- C10 witness: targeting the id `"zzz"`, which no item of the concrete store
carries, generate, publish and edit all leave the collection unchanged and
report success. -/
theorem success_paths_mutate_only_target_witness :
    (∀ r ∈ draftedState.reviews, r.id ≠ "zzz") ∧
    (generateReply draftedState "zzz" (Except.ok "T")).1.reviews = draftedState.reviews ∧
    (generateReply draftedState "zzz" (Except.ok "T")).2 = true ∧
    (postReply draftedState "zzz" "T" (Except.ok true)).1.reviews = draftedState.reviews ∧
    (postReply draftedState "zzz" "T" (Except.ok true)).2 = true ∧
    (handleReplyChange draftedState "zzz" "T").reviews = draftedState.reviews :=
  ⟨by decide,
   ((success_paths_mutate_only_target draftedState "zzz" "T" "T" true).2.2.2 (by decide)).1,
   ((success_paths_mutate_only_target draftedState "zzz" "T" "T" true).2.2.2 (by decide)).2.1,
   ((success_paths_mutate_only_target draftedState "zzz" "T" "T" true).2.2.2 (by decide)).2.2.1,
   ((success_paths_mutate_only_target draftedState "zzz" "T" "T" true).2.2.2 (by decide)).2.2.2.1,
   ((success_paths_mutate_only_target draftedState "zzz" "T" "T" true).2.2.2 (by decide)).2.2.2.2⟩
